import Mathlib

/-!
# Verification of `vminspect/timeline.py`

Shallow embedding of the NTFS timeline core: journal aggregation
(`parse_journal` / `journal_event`), directory indexing
(`NTFSTimeline._visit_filesystem`) and correlation (`generate_timeline` /
`lookup_dirent`), together with proofs of the specified properties.

Python records (namedtuples and the raw USN record) are embedded as
structures; Python lists as `List`; `set(...)` materialised through `list(...)`
as a deduplicated list; the `defaultdict(list)` directory index as a total
function `Nat → List Dirent` (its read semantics), and — where its key-set
mutation on missing-key reads is itself at stake — as an explicit
key-list/value-function pair (`JrnlContent`).  Exceptions (`LookupError`,
caught inside `generate_timeline`) are embedded as `Option`.
-/

namespace VMInspect

/-- A raw USN journal record as produced by `usn_journal` and consumed by
`parse_journal` / `journal_event` (fields used by the code:
`file_reference_number`, `file_name`, `timestamp`, `reasons`,
`file_attributes`). -/
structure UsnRecord where
  file_reference_number : Nat
  file_name : String
  timestamp : String
  reasons : List String
  file_attributes : List String
deriving DecidableEq

/-- `JrnlEvent = namedtuple('JrnlEvent', ('inode', 'name', 'timestamp',
'changes', 'attributes'))`. -/
structure JrnlEvent where
  inode : Nat
  name : String
  timestamp : String
  changes : List String
  attributes : List String
deriving DecidableEq

/-- `Dirent = namedtuple('Dirent', ('path', 'size', 'allocated'))`. -/
structure Dirent where
  path : String
  size : Int
  allocated : Bool
deriving DecidableEq

/-- `Event = namedtuple('Event', ('file_reference_number', 'path', 'size',
'allocated', 'timestamp', 'changes', 'attributes'))`. -/
structure Event where
  file_reference_number : Nat
  path : String
  size : Int
  allocated : Bool
  timestamp : String
  changes : List String
  attributes : List String
deriving DecidableEq

/-- One entry handed to `NTFSTimeline._visit_filesystem` by
`guestfs.filesystem_walk` (fields used by the code: `tsk_inode`, `tsk_name`,
`tsk_size`, `tsk_flags`). -/
structure WalkEntry where
  tsk_inode : Nat
  tsk_name : String
  tsk_size : Int
  tsk_flags : Nat
deriving DecidableEq

/-- Python `needle in hay` on strings (substring containment), on the
underlying character lists: `startsWithChars needle hay` is "needle is an
initial segment of hay". -/
def startsWithChars : List Char → List Char → Bool
  | [], _ => true
  | _ :: _, [] => false
  | a :: as, b :: bs => a == b && startsWithChars as bs

/-- Substring test on character lists: some tail of `hay` starts with
`needle`. -/
def containsChars (needle : List Char) : List Char → Bool
  | [] => needle.isEmpty
  | c :: cs => startsWithChars needle (c :: cs) || containsChars needle cs

/-- Python `needle in hay` on `String`. -/
def pyIn (needle hay : String) : Bool :=
  containsChars needle.data hay.data

/-- `keyfunc = lambda e: str(e.file_reference_number) + e.timestamp`
(line 117).  Note: string **concatenation** of the decimal rendering of the
identifier with the timestamp, not a pair. -/
def keyfunc (e : UsnRecord) : String :=
  toString e.file_reference_number ++ e.timestamp

/-- The loop of `itertools.groupby(journal, key=keyfunc)`: `acc` is the
current group so far, `prev` its last element; each new element joins the
current group when its key equals the previous element's key and opens a
fresh group otherwise (exactly `groupby`'s `currkey` bookkeeping). -/
def pyGroupByGo {α : Type} (key : α → String) (prev : α) (acc : List α) :
    List α → List (List α)
  | [] => [acc]
  | b :: rest =>
    if key b == key prev then pyGroupByGo key b (acc ++ [b]) rest
    else acc :: pyGroupByGo key b [b] rest

/-- `itertools.groupby(journal, key=keyfunc)`: split a list into the maximal
contiguous runs on which `key` is constant. -/
def pyGroupBy {α : Type} (key : α → String) : List α → List (List α)
  | [] => []
  | a :: rest => pyGroupByGo key a [a] rest

/-- `journal_event(events)` (lines 123–131): merge one group into a single
`JrnlEvent`, keeping identifier / name / timestamp of `events[0]` and taking
`list(set(chain.from_iterable(...)))` of the reasons and of the file
attributes.  Python's `events[0]` fails on an empty group, embedded as
`none`; the set materialisation is embedded as list deduplication. -/
def journal_event (events : List UsnRecord) : Option JrnlEvent :=
  match events with
  | [] => none
  | e :: _ =>
    some ⟨e.file_reference_number, e.file_name, e.timestamp,
          ((events.map (·.reasons)).flatten).dedup,
          ((events.map (·.file_attributes)).flatten).dedup⟩

/-- `parse_journal(journal)` (lines 115–120): group the journal by `keyfunc`
and collapse each group through `journal_event`. -/
def parse_journal (journal : List UsnRecord) : List JrnlEvent :=
  (pyGroupBy keyfunc journal).filterMap journal_event

/-- One step of `NTFSTimeline._visit_filesystem` (lines 105–110): append
`Dirent(path, size, allocated)` to `content[dirent['tsk_inode']]`, where
`path = self.path('/' + tsk_name)` (the path-rooting helper of the external
`FileSystem` collaborator is the parameter `fpath`), and
`allocated = tsk_flags == 1 and True or False`. -/
def mkDirent (fpath : String → String) (e : WalkEntry) : Dirent :=
  ⟨fpath ("/" ++ e.tsk_name), e.tsk_size, e.tsk_flags == 1⟩

/-- `NTFSTimeline._visit_filesystem` (lines 97–112): fold the walk into a
`defaultdict(list)` mapping inode to the list of `Dirent`s appended for it,
embedded by its read semantics as a total function `Nat → List Dirent`. -/
def visit_filesystem (fpath : String → String) (walk : List WalkEntry) :
    Nat → List Dirent :=
  walk.foldl
    (fun content e => fun i =>
      if i = e.tsk_inode then content i ++ [mkDirent fpath e] else content i)
    (fun _ => [])

/-- `lookup_dirent(event, content)` (lines 149–156): scan
`content[event.inode]` in order and return the first `Dirent` whose `path`
contains `event.name` as a substring; `raise LookupError` (embedded as
`none`) when no entry matches. -/
def lookup_dirent (event : JrnlEvent) (content : Nat → List Dirent) :
    Option Dirent :=
  (content event.inode).find? fun dirent => pyIn event.name dirent.path

/-- `generate_timeline(usnjrnl, content)` (lines 134–146): one pass over the
aggregated events; each event that resolves yields an `Event`, a
`LookupError` from `lookup_dirent` is caught and the event skipped. -/
def generate_timeline :
    List JrnlEvent → (Nat → List Dirent) → List Event
  | [], _ => []
  | e :: rest, content =>
    match lookup_dirent e content with
    | some d =>
      ⟨e.inode, d.path, d.size, d.allocated, e.timestamp,
        e.changes, e.attributes⟩ :: generate_timeline rest content
    | none => generate_timeline rest content

/-- The per-event body of `generate_timeline`: `some` of the produced
`Event` when `lookup_dirent` resolves, `none` when the `LookupError` path is
taken. -/
def timelineStep (content : Nat → List Dirent) (e : JrnlEvent) :
    Option Event :=
  (lookup_dirent e content).map fun d =>
    ⟨e.inode, d.path, d.size, d.allocated, e.timestamp,
      e.changes, e.attributes⟩

/-- The three-step pipeline of `NTFSTimeline.timeline` (lines 62–83):
aggregate the journal, index the walk, correlate. -/
def pipeline (fpath : String → String) (journal : List UsnRecord)
    (walk : List WalkEntry) : List Event :=
  generate_timeline (parse_journal journal) (visit_filesystem fpath walk)

/-! ## The directory index as a mutable `defaultdict`

`_visit_filesystem` returns `defaultdict(list)` and `lookup_dirent` reads it
with `content[event.inode]`, which on a missing key **inserts** that key
bound to a fresh empty list.  Where this key-set mutation matters the index
is embedded explicitly as the list of present keys plus the value function. -/

/-- A `defaultdict(list)` keyed by inode: the keys currently present, in
insertion order, and the value stored under each present key (`vals` is only
meaningful on present keys). -/
structure JrnlContent where
  keys : List Nat
  vals : Nat → List Dirent

/-- `content[i]` on a `defaultdict(list)`: return the stored list when `i`
is present, otherwise insert `i ↦ []` and return the fresh empty list. -/
def ddGet (d : JrnlContent) (i : Nat) : List Dirent × JrnlContent :=
  if i ∈ d.keys then (d.vals i, d)
  else ([], ⟨d.keys ++ [i], fun j => if j = i then [] else d.vals j⟩)

/-- The observable read of the index at `i`: the stored list when present,
the default `[]` otherwise.  Reading through `ddRead` is what every
`content[i]` in the code returns. -/
def ddRead (d : JrnlContent) (i : Nat) : List Dirent :=
  if i ∈ d.keys then d.vals i else []

/-- `lookup_dirent` against the mutable index: the `content[event.inode]`
subscript may insert the key; the scan itself is as in `lookup_dirent`. -/
def lookup_direntSt (event : JrnlEvent) (d : JrnlContent) :
    Option Dirent × JrnlContent :=
  let p := ddGet d event.inode
  (p.1.find? (fun dirent => pyIn event.name dirent.path), p.2)

/-- `generate_timeline` against the mutable index, threading the
`defaultdict` state through every lookup. -/
def generate_timelineSt :
    List JrnlEvent → JrnlContent → List Event × JrnlContent
  | [], d => ([], d)
  | e :: rest, d =>
    match lookup_direntSt e d with
    | (some de, d') =>
      let p := generate_timelineSt rest d'
      (⟨e.inode, de.path, de.size, de.allocated, e.timestamp,
          e.changes, e.attributes⟩ :: p.1, p.2)
    | (none, d') => generate_timelineSt rest d'

/-! ## Concrete fixtures used by witnesses and counterexamples -/

/-- Scenario A, first record: `(id=5, "foo.txt", t1, {DATA_EXTEND}, {ARCHIVE})`. -/
def recA1 : UsnRecord := ⟨5, "foo.txt", "t1", ["DATA_EXTEND"], ["ARCHIVE"]⟩

/-- Scenario A, second record: `(id=5, "foo.txt", t1, {CLOSE}, {ARCHIVE})`. -/
def recA2 : UsnRecord := ⟨5, "foo.txt", "t1", ["CLOSE"], ["ARCHIVE"]⟩

/-- A directory index holding Scenario C and Scenario D entries: inode `5`
maps to `["/dir/foo.txt"]`, inode `7` to
`["/a/report.txt", "/a/report.txt.old"]`. -/
def sampleContent : Nat → List Dirent := fun i =>
  if i = 5 then [⟨"/dir/foo.txt", 10, true⟩]
  else if i = 7 then [⟨"/a/report.txt", 1, true⟩, ⟨"/a/report.txt.old", 2, false⟩]
  else []

/-- An aggregated event on inode `5`, name `foo.txt` (Scenario C). -/
def ev5 : JrnlEvent := ⟨5, "foo.txt", "t1", ["CLOSE"], ["ARCHIVE"]⟩

/-- An aggregated event on inode `6`, which has no walk entry (Scenario B). -/
def ev6 : JrnlEvent := ⟨6, "gone.txt", "t2", ["DELETE"], []⟩

/-- An aggregated event on inode `7`, name `report.txt` (Scenario D). -/
def ev7 : JrnlEvent := ⟨7, "report.txt", "t3", ["RENAME"], []⟩

/-- The mutable-index fixture: inode `5` present with one entry. -/
def sampleJrnlContent : JrnlContent :=
  ⟨[5], fun i => if i = 5 then [⟨"/dir/foo.txt", 10, true⟩] else []⟩

/-! ## Helper lemmas -/

theorem containsChars_nil_left (l : List Char) : containsChars [] l = true := by
  cases l <;> simp [containsChars, startsWithChars, List.isEmpty]

theorem pyIn_empty_name (s : String) : pyIn "" s = true := by
  unfold pyIn
  exact containsChars_nil_left _

theorem find?_first {α : Type} (p : α → Bool) (l₁ : List α) (d : α) (l₂ : List α)
    (hmiss : ∀ d' ∈ l₁, p d' = false) (hhit : p d = true) :
    (l₁ ++ d :: l₂).find? p = some d := by
  induction l₁ with
  | nil => simp [List.find?_cons_of_pos, hhit]
  | cons a as ih =>
    rw [List.cons_append, List.find?_cons_of_neg]
    · exact ih fun d' hd' => hmiss d' (List.mem_cons_of_mem a hd')
    · simp [hmiss a (List.mem_cons_self a as)]

/-! ## Claims -/

/-- Claim C1 (code bug): `parse_journal` is specified to group adjacent
records iff both identifier and timestamp are equal, but its key is the
string **concatenation** `str(file_reference_number) + timestamp`, so the
adjacent records `(id=1, ts="23")` and `(id=12, ts="3")` — differing in both
components — collide on the key `"123"` and are merged into a single
aggregated event. -/
theorem parse_journal_concat_key_collision :
    parse_journal
        [⟨1, "a", "23", ["R1"], ["A1"]⟩, ⟨12, "b", "3", ["R2"], ["A2"]⟩] =
      [⟨1, "a", "23", ["R1", "R2"], ["A1", "A2"]⟩] := by
  decide

/-- Claim C2 (code bug): two equal-key records separated by a differing-key
record are specified to stay separate, but with the separator
`(id=12, ts="3")` between two `(id=1, ts="23")` records all three collide on
the concatenated key `"123"`: `parse_journal` merges the whole stream into
one aggregated event instead of keeping the outer two apart. -/
theorem parse_journal_merges_separated_records :
    parse_journal
        [⟨1, "a", "23", ["R1"], []⟩, ⟨12, "b", "3", ["R2"], []⟩,
          ⟨1, "c", "23", ["R3"], []⟩] =
      [⟨1, "a", "23", ["R1", "R2", "R3"], []⟩] := by
  decide

/-- Claim C5: `lookup_dirent` scans the entry list indexed under the event's
inode in list order and returns the first entry whose path contains the
event's name as a substring. -/
theorem lookup_dirent_first_match (content : Nat → List Dirent)
    (ev : JrnlEvent) (l₁ : List Dirent) (d : Dirent) (l₂ : List Dirent)
    (hsplit : content ev.inode = l₁ ++ d :: l₂)
    (hmiss : ∀ d' ∈ l₁, pyIn ev.name d'.path = false)
    (hhit : pyIn ev.name d.path = true) :
    lookup_dirent ev content = some d := by
  unfold lookup_dirent
  rw [hsplit]
  exact find?_first _ l₁ d l₂ hmiss hhit

/-- Witness for C5, Scenario D: under inode `7` the index holds
`["/a/report.txt", "/a/report.txt.old"]` and resolving `name="report.txt"`
picks the first entry. -/
theorem lookup_dirent_first_match_witness :
    sampleContent ev7.inode = [] ++ (⟨"/a/report.txt", 1, true⟩ : Dirent) ::
        [⟨"/a/report.txt.old", 2, false⟩] ∧
      pyIn ev7.name "/a/report.txt" = true ∧
      lookup_dirent ev7 sampleContent = some ⟨"/a/report.txt", 1, true⟩ :=
  ⟨by decide, by decide,
    lookup_dirent_first_match sampleContent ev7 []
      ⟨"/a/report.txt", 1, true⟩ [⟨"/a/report.txt.old", 2, false⟩]
      (by decide) (by intro d' hd'; cases hd') (by decide)⟩

/-- Claim C6: an aggregated event on which `lookup_dirent` fails contributes
nothing to the timeline and raises nothing to the caller — deleting it from
the input leaves the output unchanged, so iteration continues with the rest. -/
theorem generate_timeline_drops_unresolved (content : Nat → List Dirent)
    (e : JrnlEvent) (xs ys : List JrnlEvent)
    (h : lookup_dirent e content = none) :
    generate_timeline (xs ++ e :: ys) content =
      generate_timeline (xs ++ ys) content := by
  induction xs with
  | nil => simp [generate_timeline, h]
  | cons a as ih =>
    cases hl : lookup_dirent a content <;>
      simp [generate_timeline, hl, ih]

/-- Witness for C6, Scenario B: inode `6` has no walk entry, so its event is
silently dropped while the surrounding events still resolve. -/
theorem generate_timeline_drops_unresolved_witness :
    lookup_dirent ev6 sampleContent = none ∧
      generate_timeline ([ev5] ++ ev6 :: [ev7]) sampleContent =
        generate_timeline ([ev5] ++ [ev7]) sampleContent :=
  ⟨by decide,
    generate_timeline_drops_unresolved sampleContent ev6 [ev5] [ev7]
      (by decide)⟩

/-- Claim C10: with an empty event name the substring test accepts every
path, so `lookup_dirent` returns the head of a non-empty entry list and the
event is never dropped by the correlator. -/
theorem lookup_dirent_empty_name (content : Nat → List Dirent)
    (ev : JrnlEvent) (d : Dirent) (rest : List Dirent)
    (hname : ev.name = "") (hc : content ev.inode = d :: rest) :
    lookup_dirent ev content = some d ∧
      (timelineStep content ev).isSome = true := by
  have hlook : lookup_dirent ev content = some d := by
    unfold lookup_dirent
    rw [hc, List.find?_cons_of_pos]
    rw [hname]
    exact pyIn_empty_name d.path
  exact ⟨hlook, by simp [timelineStep, hlook]⟩

/-- Witness for C10: an empty-named event on inode `5` resolves to the first
(and only) indexed entry. -/
theorem lookup_dirent_empty_name_witness :
    (⟨5, "", "t9", [], []⟩ : JrnlEvent).name = "" ∧
      sampleContent (⟨5, "", "t9", [], []⟩ : JrnlEvent).inode =
        (⟨"/dir/foo.txt", 10, true⟩ : Dirent) :: [] ∧
      lookup_dirent ⟨5, "", "t9", [], []⟩ sampleContent =
        some ⟨"/dir/foo.txt", 10, true⟩ ∧
      (timelineStep sampleContent ⟨5, "", "t9", [], []⟩).isSome = true :=
  ⟨rfl, by decide,
    (lookup_dirent_empty_name sampleContent ⟨5, "", "t9", [], []⟩
      ⟨"/dir/foo.txt", 10, true⟩ [] rfl (by decide)).1,
    (lookup_dirent_empty_name sampleContent ⟨5, "", "t9", [], []⟩
      ⟨"/dir/foo.txt", 10, true⟩ [] rfl (by decide)).2⟩

/-! ## C3: run collapse -/

theorem pyGroupByGo_all_eq {α : Type} (key : α → String) (l : List α) :
    ∀ (prev : α) (acc : List α), (∀ b ∈ l, key b = key prev) →
      pyGroupByGo key prev acc l = [acc ++ l] := by
  induction l with
  | nil => intro prev acc _; simp [pyGroupByGo]
  | cons b t ih =>
    intro prev acc h
    have hb : key b = key prev := h b (List.mem_cons_self b t)
    have hbeq : (key b == key prev) = true := by simp [hb]
    have ht : ∀ c ∈ t, key c = key b := fun c hc =>
      (h c (List.mem_cons_of_mem b hc)).trans hb.symm
    simp only [pyGroupByGo, hbeq, if_true]
    rw [ih b (acc ++ [b]) ht]
    simp

theorem pyGroupBy_all_eq {α : Type} (key : α → String) (a : α) (l : List α)
    (h : ∀ b ∈ l, key b = key a) : pyGroupBy key (a :: l) = [a :: l] := by
  simp only [pyGroupBy]
  rw [pyGroupByGo_all_eq key l a [a] h]
  simp

/-- Claim C3: a contiguous run of records sharing identifier and timestamp
collapses under `parse_journal` to exactly one aggregated event that keeps
the first record's identifier, name and timestamp, and whose `changes` and
`attributes` are duplicate-free and contain exactly the union of the run's
`reasons` and `file_attributes`. -/
theorem parse_journal_run_collapse (e : UsnRecord) (g : List UsnRecord)
    (h : ∀ r ∈ g, r.file_reference_number = e.file_reference_number ∧
      r.timestamp = e.timestamp) :
    ∃ ev : JrnlEvent, parse_journal (e :: g) = [ev] ∧
      ev.inode = e.file_reference_number ∧ ev.name = e.file_name ∧
      ev.timestamp = e.timestamp ∧
      ev.changes.Nodup ∧ ev.attributes.Nodup ∧
      (∀ s, s ∈ ev.changes ↔ ∃ r, r ∈ e :: g ∧ s ∈ r.reasons) ∧
      (∀ s, s ∈ ev.attributes ↔ ∃ r, r ∈ e :: g ∧ s ∈ r.file_attributes) := by
  have hkey : ∀ r ∈ g, keyfunc r = keyfunc e := by
    intro r hr
    obtain ⟨h1, h2⟩ := h r hr
    unfold keyfunc
    rw [h1, h2]
  have hgrp : pyGroupBy keyfunc (e :: g) = [e :: g] :=
    pyGroupBy_all_eq keyfunc e g hkey
  refine ⟨⟨e.file_reference_number, e.file_name, e.timestamp,
      (((e :: g).map (·.reasons)).flatten).dedup,
      (((e :: g).map (·.file_attributes)).flatten).dedup⟩,
    ?_, rfl, rfl, rfl, List.nodup_dedup _, List.nodup_dedup _, ?_, ?_⟩
  · unfold parse_journal
    rw [hgrp]
    rfl
  · intro s
    simp only [List.mem_dedup, List.mem_flatten, List.mem_map]
    constructor
    · rintro ⟨a, ⟨r, hr, rfl⟩, hs⟩
      exact ⟨r, hr, hs⟩
    · rintro ⟨r, hr, hs⟩
      exact ⟨r.reasons, ⟨r, hr, rfl⟩, hs⟩
  · intro s
    simp only [List.mem_dedup, List.mem_flatten, List.mem_map]
    constructor
    · rintro ⟨a, ⟨r, hr, rfl⟩, hs⟩
      exact ⟨r, hr, hs⟩
    · rintro ⟨r, hr, hs⟩
      exact ⟨r.file_attributes, ⟨r, hr, rfl⟩, hs⟩

/-- Witness for C3, Scenario A: the two adjacent `(id=5, t1)` records merge
into one event with the union `{DATA_EXTEND, CLOSE}` / `{ARCHIVE}`. -/
theorem parse_journal_run_collapse_witness :
    ∃ ev : JrnlEvent, parse_journal (recA1 :: [recA2]) = [ev] ∧
      ev.inode = recA1.file_reference_number ∧ ev.name = recA1.file_name ∧
      ev.timestamp = recA1.timestamp ∧
      ev.changes.Nodup ∧ ev.attributes.Nodup ∧
      (∀ s, s ∈ ev.changes ↔ ∃ r, r ∈ recA1 :: [recA2] ∧ s ∈ r.reasons) ∧
      (∀ s, s ∈ ev.attributes ↔
        ∃ r, r ∈ recA1 :: [recA2] ∧ s ∈ r.file_attributes) :=
  parse_journal_run_collapse recA1 [recA2] (by decide)

/-! ## C4: the directory index is lossless -/

theorem visit_filesystem_foldl (fpath : String → String) (walk : List WalkEntry) :
    ∀ (c : Nat → List Dirent) (i : Nat),
      (walk.foldl
        (fun content e => fun j =>
          if j = e.tsk_inode then content j ++ [mkDirent fpath e] else content j)
        c) i =
        c i ++ (walk.filter fun e => e.tsk_inode == i).map (mkDirent fpath) := by
  induction walk with
  | nil => intro c i; simp
  | cons a t ih =>
    intro c i
    simp only [List.foldl_cons, List.filter_cons]
    rw [ih]
    by_cases hai : a.tsk_inode = i
    · have h1 : (a.tsk_inode == i) = true := by simp [hai]
      have h2 : i = a.tsk_inode := hai.symm
      simp [h1, if_pos h2, List.append_assoc]
    · have h1 : (a.tsk_inode == i) = false := by simp [hai]
      have h2 : ¬i = a.tsk_inode := fun hh => hai hh.symm
      simp [h1, if_neg h2]

/-- Claim C4: the directory index built by `_visit_filesystem` maps each
inode to exactly the `Dirent`s of the walk entries carrying that inode, in
encounter order — one list element per observation, nothing overwritten or
removed. -/
theorem visit_filesystem_lossless (fpath : String → String)
    (walk : List WalkEntry) (i : Nat) :
    visit_filesystem fpath walk i =
      (walk.filter fun e => e.tsk_inode == i).map (mkDirent fpath) ∧
    (visit_filesystem fpath walk i).length =
      walk.countP fun e => e.tsk_inode == i := by
  have h := visit_filesystem_foldl fpath walk (fun _ => []) i
  have heq : visit_filesystem fpath walk i =
      (walk.filter fun e => e.tsk_inode == i).map (mkDirent fpath) := by
    unfold visit_filesystem
    rw [h]
    simp
  refine ⟨heq, ?_⟩
  rw [heq, List.length_map, List.countP_eq_length_filter]

/-! ## C7: the timeline is a stable subsequence of its input -/

theorem generate_timeline_eq_filterMap (content : Nat → List Dirent)
    (evs : List JrnlEvent) :
    generate_timeline evs content = evs.filterMap (timelineStep content) := by
  induction evs with
  | nil => rfl
  | cons e rest ih =>
    cases hl : lookup_dirent e content <;>
      simp [generate_timeline, List.filterMap_cons, timelineStep, hl, ih]

theorem filterMap_filter_isSome {α β : Type} (f : α → Option β) (l : List α) :
    (l.filter fun a => (f a).isSome).filterMap f = l.filterMap f := by
  induction l with
  | nil => rfl
  | cons a t ih =>
    cases hf : f a <;> simp [List.filter_cons, List.filterMap_cons, hf, ih]

/-- Claim C7: `generate_timeline` is one per-event pass — its output is the
`filterMap` of a per-event resolution step, is never longer than its input,
and equals that step mapped over a sublist of the input (each input event
contributes at most one output, resolving events keep their relative
order). -/
theorem generate_timeline_subsequence (content : Nat → List Dirent)
    (evs : List JrnlEvent) :
    generate_timeline evs content = evs.filterMap (timelineStep content) ∧
    (generate_timeline evs content).length ≤ evs.length ∧
    ∃ sub : List JrnlEvent, sub.Sublist evs ∧
      (∀ e ∈ sub, (timelineStep content e).isSome = true) ∧
      generate_timeline evs content = sub.filterMap (timelineStep content) := by
  have h := generate_timeline_eq_filterMap content evs
  refine ⟨h, ?_,
    ⟨evs.filter fun e => (timelineStep content e).isSome,
      List.filter_sublist _, ?_, ?_⟩⟩
  · rw [h]
    exact List.length_filterMap_le _ _
  · intro e he
    exact (List.mem_filter.mp he).2
  · rw [h, filterMap_filter_isSome]

/-! ## C8: the directory index across correlation -/

theorem ddRead_ddGet (d : JrnlContent) (i j : Nat) :
    ddRead (ddGet d i).2 j = ddRead d j := by
  unfold ddGet ddRead
  by_cases hi : i ∈ d.keys
  · simp [hi]
  · by_cases hj : j = i
    · subst hj
      simp [hi, List.mem_append]
    · by_cases hjk : j ∈ d.keys <;> simp [hi, List.mem_append, hjk, hj]

theorem ddGet_keys_vals (d : JrnlContent) (i j : Nat) (hj : j ∈ d.keys) :
    j ∈ (ddGet d i).2.keys ∧ (ddGet d i).2.vals j = d.vals j := by
  unfold ddGet
  by_cases hi : i ∈ d.keys
  · simp [hi, hj]
  · have hne : j ≠ i := fun hh => hi (hh ▸ hj)
    simp [hi, List.mem_append, hj, hne]

theorem generate_timelineSt_state (evs : List JrnlEvent) :
    ∀ d : JrnlContent,
      (∀ j, ddRead (generate_timelineSt evs d).2 j = ddRead d j) ∧
      (∀ j ∈ d.keys, j ∈ (generate_timelineSt evs d).2.keys ∧
        (generate_timelineSt evs d).2.vals j = d.vals j) := by
  induction evs with
  | nil => intro d; exact ⟨fun _ => rfl, fun j hj => ⟨hj, rfl⟩⟩
  | cons e rest ih =>
    intro d
    have hstep : (generate_timelineSt (e :: rest) d).2 =
        (generate_timelineSt rest (ddGet d e.inode).2).2 := by
      cases hf : (ddGet d e.inode).1.find? (fun de => pyIn e.name de.path) <;>
        simp [generate_timelineSt, lookup_direntSt, hf]
    refine ⟨fun j => ?_, fun j hj => ?_⟩
    · rw [hstep, (ih (ddGet d e.inode).2).1 j]
      exact ddRead_ddGet d e.inode j
    · obtain ⟨hj', hv'⟩ := ddGet_keys_vals d e.inode j hj
      obtain ⟨hj'', hv''⟩ := (ih (ddGet d e.inode).2).2 j hj'
      rw [hstep]
      exact ⟨hj'', hv''.trans hv'⟩

/-- Counterexample to C8 as stated: correlating an event whose inode is
absent from the index mutates the index's key set — the `defaultdict`
subscript in `lookup_dirent` inserts the missing inode — so the key set is
not "the same set of keys" afterwards. -/
theorem generate_timelineSt_grows_keys :
    (generate_timelineSt [ev6] sampleJrnlContent).2.keys ≠
      sampleJrnlContent.keys := by
  decide

/-- Claim C8 (amended): correlation never changes the observable value of
the index at any identifier (reading absent keys as the default empty list)
and never removes or rebinds an existing key; it may only append
looked-up-but-absent identifiers as new keys bound to the empty list. -/
theorem generate_timelineSt_read_only (evs : List JrnlEvent)
    (d : JrnlContent) (j : Nat) :
    ddRead (generate_timelineSt evs d).2 j = ddRead d j ∧
    (j ∈ d.keys → j ∈ (generate_timelineSt evs d).2.keys ∧
      (generate_timelineSt evs d).2.vals j = d.vals j) :=
  ⟨(generate_timelineSt_state evs d).1 j,
    fun hj => (generate_timelineSt_state evs d).2 j hj⟩

/-- Witness for C8: on the sample index, correlating the unresolvable
`ev6` leaves key `5` present with its entry list intact and its observable
read unchanged. -/
theorem generate_timelineSt_read_only_witness :
    5 ∈ sampleJrnlContent.keys ∧
    ddRead (generate_timelineSt [ev6] sampleJrnlContent).2 5 =
      ddRead sampleJrnlContent 5 ∧
    (5 ∈ (generate_timelineSt [ev6] sampleJrnlContent).2.keys ∧
      (generate_timelineSt [ev6] sampleJrnlContent).2.vals 5 =
        sampleJrnlContent.vals 5) :=
  ⟨by decide,
    (generate_timelineSt_read_only [ev6] sampleJrnlContent 5).1,
    (generate_timelineSt_read_only [ev6] sampleJrnlContent 5).2 (by decide)⟩

/-! ## C9: determinism of the pipeline -/

/-- Claim C9: the three-step pipeline is a pure function of its two input
sequences — two runs over equal journals and equal walks produce equal
timelines, element by element. -/
theorem pipeline_deterministic (fpath : String → String)
    (j₁ j₂ : List UsnRecord) (w₁ w₂ : List WalkEntry)
    (hj : j₁ = j₂) (hw : w₁ = w₂) :
    pipeline fpath j₁ w₁ = pipeline fpath j₂ w₂ := by
  rw [hj, hw]

/-- Witness for C9: two runs over the Scenario A journal and a one-entry
walk agree. -/
theorem pipeline_deterministic_witness :
    [recA1, recA2] = [recA1, recA2] ∧
    [(⟨5, "dir/foo.txt", 10, 1⟩ : WalkEntry)] = [⟨5, "dir/foo.txt", 10, 1⟩] ∧
    pipeline id [recA1, recA2] [⟨5, "dir/foo.txt", 10, 1⟩] =
      pipeline id [recA1, recA2] [⟨5, "dir/foo.txt", 10, 1⟩] :=
  ⟨rfl, rfl,
    pipeline_deterministic id [recA1, recA2] [recA1, recA2]
      [⟨5, "dir/foo.txt", 10, 1⟩] [⟨5, "dir/foo.txt", 10, 1⟩] rfl rfl⟩

end VMInspect
